import Mathlib

/-!
Shallow embedding of `viewpane.py` (tboz203/viewpane): the stransi
instruction-stream translator, the color-pair registry it maintains, the
`PadManager` viewport with its clamped scroll offset, and the top-level
exit-status dispatch of `main`.
-/

namespace Viewpane

/-! ### curses attribute constants (ncurses bit layout) -/

def A_UNDERLINE : Nat := 1 <<< 17

def A_REVERSE : Nat := 1 <<< 18

def A_BLINK : Nat := 1 <<< 19

def A_DIM : Nat := 1 <<< 20

def A_BOLD : Nat := 1 <<< 21

def A_INVIS : Nat := 1 <<< 23

def A_ITALIC : Nat := 1 <<< 31

def A_COLOR : Nat := 0xFF00

/-- Python `a & ~m` on nonnegative ints: clear from `a` every bit set in `m`.
Since `a &&& m` is a bitwise subset of `a`, xor-ing it out clears exactly
those bits. -/
def andNot (a m : Nat) : Nat := a ^^^ (a &&& m)

/-- `curses.color_pair(n)`: move a pair number into the color bits of an attr. -/
def color_pair (n : Nat) : Nat := (n <<< 8) &&& A_COLOR

/-- `curses.pair_number(attr)`: extract the pair number from an attr. -/
def pair_number (a : Nat) : Nat := (a &&& A_COLOR) >>> 8

/-! ### color map (the registry dict `self._color_map`) -/

/-- `ColorMap = dict[tuple[int, int], int]`, insertion-ordered. -/
abbrev ColorMap := List ((Int × Int) × Nat)

/-- Dict lookup (keys are unique in a dict, so first match is the match). -/
def cmLookup : ColorMap → (Int × Int) → Option Nat
  | [], _ => none
  | (q, n) :: rest, p => if q = p then some n else cmLookup rest p

/-- `max(self._color_map.values())` (0 on an empty dict; only used through
`allocSlot`, which special-cases the empty dict exactly as the source does). -/
def maxSlot (m : ColorMap) : Nat := (m.map (·.2)).foldl Nat.max 0

/-- `(max(self._color_map.values()) + 1) if self._color_map else 1`:
the next free color-pair number. -/
def allocSlot (m : ColorMap) : Nat := if m.isEmpty then 1 else maxSlot m + 1

/-- The registry operation of lines 117-127: return the slot of an
already-registered pair unchanged, otherwise allocate the next free slot and
record the mapping. -/
def resolveColor (m : ColorMap) (p : Int × Int) : Nat × ColorMap :=
  match cmLookup m p with
  | some n => (n, m)
  | none => (allocSlot m, m ++ [(p, allocSlot m)])

/-- `resolveColor` folded over a list of pairs, threading the registry. -/
def resolveAll (m : ColorMap) : List (Int × Int) → List Nat × ColorMap
  | [] => ([], m)
  | p :: ps =>
    let r := resolveColor m p
    let rest := resolveAll r.2 ps
    (r.1 :: rest.1, rest.2)

/-! ### the curses color-pair table (`init_pair` / `pair_content`) -/

/-- The curses color-pair table. `default0` is the content of pair 0 (with
`use_default_colors` in effect it is `(-1, -1)`); `table` records
`init_pair` calls. -/
structure CursesColors where
  default0 : Int × Int
  table : List (Nat × (Int × Int))
  deriving DecidableEq

def setPairEntry (n : Nat) (fg bg : Int) :
    List (Nat × (Int × Int)) → List (Nat × (Int × Int))
  | [] => [(n, (fg, bg))]
  | (m, c) :: rest =>
    if m = n then (n, (fg, bg)) :: rest else (m, c) :: setPairEntry n fg bg rest

/-- `curses.init_pair(n, fg, bg)`. -/
def init_pair (cp : CursesColors) (n : Nat) (fg bg : Int) : CursesColors :=
  { cp with table := setPairEntry n fg bg cp.table }

/-- `curses.pair_content(n)`. -/
def pair_content (cp : CursesColors) (n : Nat) : Int × Int :=
  if n = 0 then cp.default0 else ((cp.table.lookup n).getD (0, 0))

/-! ### stransi instructions (`Ansi.instructions()` items) -/

/-- `stransi.attribute.Attribute`. -/
inductive Attribute where
  | NORMAL | BLINK | BOLD | DIM | HIDDEN | ITALIC | REVERSE | UNDERLINE
  | NEITHER_BOLD_NOR_DIM | NOT_BLINK | NOT_HIDDEN | NOT_ITALIC | NOT_REVERSE
  | NOT_UNDERLINE
  deriving DecidableEq

/-- `stransi.color.ColorRole`. -/
inductive ColorRole where
  | FOREGROUND | BACKGROUND
  deriving DecidableEq

/-- One item of an instruction stream: a plain string, a `SetColor` (whose
optional payload is the `item.color.ansi256.code`), or a `SetAttribute`. -/
inductive Instruction where
  | str (s : String)
  | setColor (role : ColorRole) (color : Option Int)
  | setAttribute (a : Attribute)
  deriving DecidableEq

/-! ### the translator's generator body (lines 84-167) -/

/-- The local variables live inside one run of the generator body of
`translate_ansi_instruction_stream`: `attr`, `color_num`, `fg`, `bg`, plus
the two pieces of shared mutable state the body updates in place as it goes
(the registry dict `self._color_map` and the curses pair table). -/
structure GenLocals where
  attr : Nat
  color_num : Nat
  fg : Int
  bg : Int
  color_map : ColorMap
  colors : CursesColors
  deriving DecidableEq

/-- One iteration of the `for item in stream` loop: the updated locals, plus
the span yielded when the item is a string. -/
def procInstruction (l : GenLocals) (item : Instruction) :
    GenLocals × Option (String × Nat) :=
  match item with
  | .str s => (l, some (s, l.attr ||| color_pair l.color_num))
  | .setColor role c =>
    match c with
    | none => (l, none)
    | some code =>
      let fg : Int := match role with | .FOREGROUND => code | .BACKGROUND => l.fg
      let bg : Int := match role with | .FOREGROUND => l.bg | .BACKGROUND => code
      match cmLookup l.color_map (fg, bg) with
      | some n => ({ l with fg := fg, bg := bg, color_num := n }, none)
      | none =>
        let n := allocSlot l.color_map
        let l2 := { l with fg := fg, bg := bg, color_num := n }
        let l3 := { l2 with colors := init_pair l.colors n fg bg }
        ({ l3 with color_map := l.color_map ++ [((fg, bg), n)] }, none)
  | .setAttribute a =>
    match a with
    | .NORMAL => ({ l with color_num := 0, attr := 0 }, none)
    | .BLINK => ({ l with attr := l.attr ||| A_BLINK }, none)
    | .BOLD => ({ l with attr := l.attr ||| A_BOLD }, none)
    | .DIM => ({ l with attr := l.attr ||| A_DIM }, none)
    | .HIDDEN => ({ l with attr := l.attr ||| A_INVIS }, none)
    | .ITALIC => ({ l with attr := l.attr ||| A_ITALIC }, none)
    | .REVERSE => ({ l with attr := l.attr ||| A_REVERSE }, none)
    | .UNDERLINE => ({ l with attr := l.attr ||| A_UNDERLINE }, none)
    | .NEITHER_BOLD_NOR_DIM => ({ l with attr := andNot l.attr (A_BOLD ||| A_DIM) }, none)
    | .NOT_BLINK => ({ l with attr := andNot l.attr A_BLINK }, none)
    | .NOT_HIDDEN => ({ l with attr := andNot l.attr A_INVIS }, none)
    | .NOT_ITALIC => ({ l with attr := andNot l.attr A_ITALIC }, none)
    | .NOT_REVERSE => ({ l with attr := andNot l.attr A_REVERSE }, none)
    | .NOT_UNDERLINE => ({ l with attr := andNot l.attr A_UNDERLINE }, none)

/-- The suspension structure of the generator: at each `yield` the emitted
span together with a snapshot of the locals (and shared state) at that
suspension point; at the end the final locals, available to the
`self._attr = attr; self._color_num = color_num` write-back. -/
inductive GenTrace where
  | done (l : GenLocals)
  | emit (s : String) (a : Nat) (l : GenLocals) (rest : GenTrace)

/-- Run the generator body over the whole stream, recording every yield. -/
def genTrace (l : GenLocals) : List Instruction → GenTrace
  | [] => .done l
  | item :: rest =>
    match procInstruction l item with
    | (l2, some (s, a)) => .emit s a l2 (genTrace l2 rest)
    | (l2, none) => genTrace l2 rest

/-- All spans yielded along a trace. -/
def traceSpans : GenTrace → List (String × Nat)
  | .done _ => []
  | .emit s a _ rest => (s, a) :: traceSpans rest

/-- The locals at the end of the generator body (where lines 166-167 run). -/
def traceFinalLocals : GenTrace → GenLocals
  | .done l => l
  | .emit _ _ _ rest => traceFinalLocals rest

/-! ### the translator object -/

/-- The persistent state of a `StransiInstructionStreamTranslator`:
`self._attr` (never carrying color bits), `self._color_num`, and the
registry dict `self._color_map`. -/
structure StransiInstructionStreamTranslator where
  attr : Nat
  color_num : Nat
  color_map : ColorMap
  deriving DecidableEq

/-- `__init__`: the color number defaults to `pair_number(init_attr)`, and
any prior color number is removed from the stored attr. -/
def StransiInstructionStreamTranslator.new (init_attr : Nat := 0)
    (init_color_num : Option Nat := none) (color_map : ColorMap := []) :
    StransiInstructionStreamTranslator :=
  { color_num := init_color_num.getD (pair_number init_attr),
    attr := andNot init_attr A_COLOR,
    color_map := color_map }

/-- Lines 96-98: the locals at generator start, seeded from the stored state
and `curses.pair_content(color_num)`. -/
def startLocals (t : StransiInstructionStreamTranslator) (cp : CursesColors) :
    GenLocals :=
  { attr := t.attr, color_num := t.color_num,
    fg := (pair_content cp t.color_num).1, bg := (pair_content cp t.color_num).2,
    color_map := t.color_map, colors := cp }

/-- `translate_ansi_instruction_stream`, with the returned generator driven
to exhaustion (as `PadManager.write` does): the yielded spans, the
translator state after the final write-back, and the curses pair table. -/
def StransiInstructionStreamTranslator.translate_ansi_instruction_stream
    (t : StransiInstructionStreamTranslator) (cp : CursesColors)
    (stream : List Instruction) :
    List (String × Nat) × StransiInstructionStreamTranslator × CursesColors :=
  let tr := genTrace (startLocals t cp) stream
  let lf := traceFinalLocals tr
  (traceSpans tr, ⟨lf.attr, lf.color_num, lf.color_map⟩, lf.colors)

/-- Call `next()` on the suspended generator at most `k` times and then
abandon it: the spans obtained, the translator object's fields as they then
stand (the shared dict reflects the last suspension point; `self._attr` and
`self._color_num` are only assigned if the body ran to `StopIteration`), and
the curses pair table. -/
def driveGen (objAttr objColorNum : Nat) :
    GenTrace → ColorMap → CursesColors → Nat →
    List (String × Nat) × StransiInstructionStreamTranslator × CursesColors
  | _, m, cp, 0 => ([], ⟨objAttr, objColorNum, m⟩, cp)
  | .done l, _, _, _ + 1 => ([], ⟨l.attr, l.color_num, l.color_map⟩, l.colors)
  | .emit s a l rest, _, _, k + 1 =>
    let r := driveGen objAttr objColorNum rest l.color_map l.colors k
    ((s, a) :: r.1, r.2)

/-- A translate call whose returned generator is driven for only `k` spans
and then dropped. -/
def translatePartial (t : StransiInstructionStreamTranslator)
    (cp : CursesColors) (stream : List Instruction) (k : Nat) :
    List (String × Nat) × StransiInstructionStreamTranslator × CursesColors :=
  driveGen t.attr t.color_num (genTrace (startLocals t cp) stream)
    t.color_map cp k

/-! ### `bound` (lines 519-530) -/

/-- The `value` argument of `bound`: a number or the literal strings
`"max"` / `"min"`. -/
inductive BoundVal where
  | num (n : Int)
  | maxS
  | minS
  deriving DecidableEq

/-- `bound(lower, value, upper)`: `"max"` selects the upper bound, `"min"`
the lower, and a number is clamped inclusively. -/
def bound (lower : Int) (value : BoundVal) (upper : Int) : Int :=
  match value with
  | .maxS => upper
  | .minS => lower
  | .num v => min (max lower v) upper

/-! ### `PadManager` (lines 170-269) -/

/-- `ansi_length`: the printing length of a line, i.e. the total length of
its string items. -/
def ansi_length (line : List Instruction) : Nat :=
  (line.map fun i => match i with | .str s => s.length | _ => 0).sum

/-- The state of a `PadManager`: the pad's dimensions (`pad.getmaxyx()`),
the scroll offset `self.coords`, the translator (whose `color_map` field is
the shared `self.color_map` dict), and the curses color-pair table. The pad
cell contents live in the curses collaborator and are not modeled. -/
structure PadManager where
  rows : Nat
  cols : Nat
  coords : Int × Int
  translator : StransiInstructionStreamTranslator
  colors : CursesColors
  deriving DecidableEq

/-- `__init__` with no pad supplied: `curses.newpad(24, 80)`, offset
`(0, 0)`, an empty shared color map, and (because `Viewpane.__init__` has
called `curses.use_default_colors()`) pair 0 content `(-1, -1)`. -/
def initialPadManager : PadManager :=
  { rows := 24, cols := 80, coords := (0, 0),
    translator := StransiInstructionStreamTranslator.new,
    colors := { default0 := (-1, -1), table := [] } }

/-- The write loop of `PadManager.write`: each line's instruction stream is
fed to the shared translator and the generator is fully exhausted (the
`for text, attr in stream` loop), threading translator and curses state. -/
def writeLines (t : StransiInstructionStreamTranslator) (cp : CursesColors) :
    List (List Instruction) → StransiInstructionStreamTranslator × CursesColors
  | [] => (t, cp)
  | line :: rest =>
    let r := t.translate_ansi_instruction_stream cp line
    writeLines r.2.1 r.2.2 rest

/-- `PadManager.write`: `_resize` the pad to fit the lines
(`len(ansi_lines) or 1` rows and `max(map(ansi_length, ansi_lines)) + 1`
columns, or 1+1 when there are no lines), erase it, and paint each line.
The offset `self.coords` is not touched. -/
def PadManager.write (pm : PadManager) (ansi_lines : List (List Instruction)) :
    PadManager :=
  let lines_y := if ansi_lines.length = 0 then 1 else ansi_lines.length
  let lines_x := if ansi_lines.isEmpty then 1
    else (ansi_lines.map ansi_length).foldl Nat.max 0
  let tp := writeLines pm.translator pm.colors ansi_lines
  { pm with rows := lines_y, cols := lines_x + 1,
            translator := tp.1, colors := tp.2 }

/-- `PadManager.move_by`: shift the offset by the deltas, each axis bounded
into `[0, dimension - 1]` by `bound`. -/
def PadManager.move_by (pm : PadManager) (move_y move_x : Int) : PadManager :=
  let y := pm.coords.1
  let x := pm.coords.2
  let y2 := bound 0 (.num (y + move_y)) ((pm.rows : Int) - 1)
  let x2 := bound 0 (.num (x + move_x)) ((pm.cols : Int) - 1)
  { pm with coords := (y2, x2) }

/-- An argument of `jump_to`: a coordinate, `"max"`, `"min"`, or `None`. -/
inductive JumpArg where
  | num (n : Int)
  | maxB
  | minB
  | noneB
  deriving DecidableEq

/-- `PadManager.jump_to`: `None` keeps the axis's current value; the result
is bounded exactly as in `move_by`. -/
def PadManager.jump_to (pm : PadManager) (new_y new_x : JumpArg) : PadManager :=
  let vy : BoundVal := match new_y with
    | .noneB => .num pm.coords.1
    | .num n => .num n
    | .maxB => .maxS
    | .minB => .minS
  let vx : BoundVal := match new_x with
    | .noneB => .num pm.coords.2
    | .num n => .num n
    | .maxB => .maxS
    | .minB => .minS
  let y := bound 0 vy ((pm.rows : Int) - 1)
  let x := bound 0 vx ((pm.cols : Int) - 1)
  { pm with coords := (y, x) }

/-- A sequence of `move_by` calls. -/
def moveSeq (pm : PadManager) (ds : List (Int × Int)) : PadManager :=
  ds.foldl (fun p d => p.move_by d.1 d.2) pm

/-- The scroll-offset invariant of the spec's data model:
`0 ≤ y ≤ rows - 1` and `0 ≤ x ≤ cols - 1`. -/
abbrev offsetInBounds (pm : PadManager) : Prop :=
  0 ≤ pm.coords.1 ∧ pm.coords.1 ≤ (pm.rows : Int) - 1 ∧
  0 ≤ pm.coords.2 ∧ pm.coords.2 ≤ (pm.cols : Int) - 1

/-! ### `main` exception dispatch (lines 566-584) -/

/-- How the `curses.wrapper(win_main, ...)` call in `main` terminates. -/
inductive WinMainOutcome where
  | normal
  | keyboardInterrupt
  | calledProcessError
  | otherException
  deriving DecidableEq

/-- What Python's `exit()` receives. -/
inductive ExitArg where
  | intVal (n : Nat)
  | excObject
  deriving DecidableEq

/-- The value of `exit_value` at the `finally` block: it starts as `0` and
is reassigned only in the `CalledProcessError` branch (to the exception
object); the generic `Exception` branch logs and prints the traceback but
leaves it untouched. -/
def mainExitArg : WinMainOutcome → ExitArg
  | .calledProcessError => .excObject
  | _ => .intVal 0

/-- The process exit status produced by `exit(arg)`: an integer is the
status itself; any other object is printed and the status is 1. -/
def exitStatus : ExitArg → Nat
  | .intVal n => n % 256
  | .excObject => 1

/-- The exit status of the `viewpane` process as a function of how the
wrapped main terminated. -/
def mainExitStatus (o : WinMainOutcome) : Nat := exitStatus (mainExitArg o)

/-! ### helper lemmas -/

theorem bound_le_all (lo hi : Int) (h : lo ≤ hi) (v : BoundVal) :
    lo ≤ bound lo v hi ∧ bound lo v hi ≤ hi := by
  cases v with
  | maxS => exact ⟨h, le_refl _⟩
  | minS => exact ⟨le_refl _, h⟩
  | num n => exact ⟨le_min (le_max_left _ _) h, min_le_right _ _⟩

theorem bound_zero (v : BoundVal) : bound 0 v 0 = 0 := by
  cases v with
  | maxS => rfl
  | minS => rfl
  | num n => exact min_eq_right (le_max_left 0 n)

theorem offsetInBounds_move_by (pm : PadManager) (hR : 1 ≤ pm.rows)
    (hC : 1 ≤ pm.cols) (dy dx : Int) : offsetInBounds (pm.move_by dy dx) := by
  have hR' : (0 : Int) ≤ (pm.rows : Int) - 1 := by omega
  have hC' : (0 : Int) ≤ (pm.cols : Int) - 1 := by omega
  have h1 := bound_le_all 0 ((pm.rows : Int) - 1) hR' (.num (pm.coords.1 + dy))
  have h2 := bound_le_all 0 ((pm.cols : Int) - 1) hC' (.num (pm.coords.2 + dx))
  exact ⟨h1.1, h1.2, h2.1, h2.2⟩

theorem offsetInBounds_jump_to (pm : PadManager) (hR : 1 ≤ pm.rows)
    (hC : 1 ≤ pm.cols) (ay ax : JumpArg) : offsetInBounds (pm.jump_to ay ax) := by
  have hR' : (0 : Int) ≤ (pm.rows : Int) - 1 := by omega
  have hC' : (0 : Int) ≤ (pm.cols : Int) - 1 := by omega
  have h1 := bound_le_all 0 ((pm.rows : Int) - 1) hR'
    (match ay with
      | .noneB => .num pm.coords.1 | .num n => .num n
      | .maxB => .maxS | .minB => .minS)
  have h2 := bound_le_all 0 ((pm.cols : Int) - 1) hC'
    (match ax with
      | .noneB => .num pm.coords.2 | .num n => .num n
      | .maxB => .maxS | .minB => .minS)
  exact ⟨h1.1, h1.2, h2.1, h2.2⟩

theorem moveSeq_inBounds (ds : List (Int × Int)) : ∀ pm : PadManager,
    1 ≤ pm.rows → 1 ≤ pm.cols → offsetInBounds pm →
    offsetInBounds (moveSeq pm ds) ∧ (moveSeq pm ds).rows = pm.rows ∧
      (moveSeq pm ds).cols = pm.cols := by
  induction ds with
  | nil => exact fun pm _ _ h => ⟨h, rfl, rfl⟩
  | cons d rest ih =>
    intro pm hR hC _
    have hmb := offsetInBounds_move_by pm hR hC d.1 d.2
    exact ih (pm.move_by d.1 d.2) hR hC hmb

theorem cmLookup_append_some (m l : ColorMap) (q : Int × Int) (n : Nat)
    (h : cmLookup m q = some n) : cmLookup (m ++ l) q = some n := by
  induction m with
  | nil => simp [cmLookup] at h
  | cons e rest ih =>
    rcases e with ⟨p', n'⟩
    by_cases hq : p' = q
    · simp only [cmLookup, if_pos hq] at h
      simp only [List.cons_append, cmLookup, if_pos hq]
      exact h
    · simp only [cmLookup, if_neg hq] at h
      simp only [List.cons_append, cmLookup, if_neg hq]
      exact ih h

theorem cmLookup_append_none (m l : ColorMap) (q : Int × Int)
    (h : cmLookup m q = none) : cmLookup (m ++ l) q = cmLookup l q := by
  induction m with
  | nil => rfl
  | cons e rest ih =>
    rcases e with ⟨p', n'⟩
    by_cases hq : p' = q
    · simp [cmLookup, hq] at h
    · simp only [cmLookup, if_neg hq] at h
      simp only [List.cons_append, cmLookup, if_neg hq]
      exact ih h

theorem maxSlot_append_single (m : ColorMap) (p : Int × Int) (n : Nat) :
    maxSlot (m ++ [(p, n)]) = Nat.max (maxSlot m) n := by
  simp [maxSlot, List.map_append, List.foldl_append]

theorem allocSlot_append (m : ColorMap) (p : Int × Int) (k : Nat)
    (h : allocSlot m = k + 1) : allocSlot (m ++ [(p, k + 1)]) = k + 2 := by
  have hmax : maxSlot m = k := by
    by_cases he : m.isEmpty
    · have hm : m = [] := by
        cases m with
        | nil => rfl
        | cons a t => simp [List.isEmpty] at he
      subst hm
      have h1 : (1 : Nat) = k + 1 := by simpa [allocSlot] using h
      have hk : k = 0 := by omega
      simp [maxSlot, hk]
    · simp only [allocSlot, if_neg he] at h
      omega
  have hne : (m ++ [(p, k + 1)]).isEmpty = false := by
    cases m <;> rfl
  rw [allocSlot, hne]
  simp only [Bool.false_eq_true, if_false, maxSlot_append_single, hmax]
  simp [Nat.max_def]

theorem resolveAll_range (ps : List (Int × Int)) : ∀ (m : ColorMap) (k : Nat),
    (∀ p ∈ ps, cmLookup m p = none) → ps.Nodup → allocSlot m = k + 1 →
    (resolveAll m ps).1 = List.range' (k + 1) ps.length := by
  induction ps with
  | nil => intro m k _ _ _; rfl
  | cons p rest ih =>
    intro m k hnone hnd halloc
    have hp : cmLookup m p = none := hnone p (by simp)
    have hres : resolveColor m p = (k + 1, m ++ [(p, k + 1)]) := by
      simp [resolveColor, hp, halloc]
    have hnone2 : ∀ q ∈ rest, cmLookup (m ++ [(p, k + 1)]) q = none := by
      intro q hq
      have h1 : cmLookup m q = none := hnone q (by simp [hq])
      rw [cmLookup_append_none m _ q h1]
      have hpq : p ≠ q := by
        intro he
        subst he
        exact (List.nodup_cons.mp hnd).1 hq
      simp [cmLookup, hpq]
    have hrec := ih (m ++ [(p, k + 1)]) (k + 1) hnone2 (List.nodup_cons.mp hnd).2
      (allocSlot_append m p k halloc)
    show (resolveColor m p).1 :: (resolveAll (resolveColor m p).2 rest).1 = _
    rw [hres]
    simp only [hrec, List.length_cons]
    rw [List.range'_succ]

theorem testBit_andNot (a m i : Nat) :
    (andNot a m).testBit i = (a.testBit i && !(m.testBit i)) := by
  simp only [andNot, Nat.testBit_xor, Nat.testBit_land]
  cases a.testBit i <;> cases m.testBit i <;> rfl

theorem andNot_pow_testBit (a b i : Nat) :
    (andNot a (2 ^ b)).testBit i = if b = i then false else a.testBit i := by
  rw [testBit_andNot]
  by_cases h : b = i
  · subst h
    simp [Nat.testBit_two_pow_self]
  · simp [h, Nat.testBit_two_pow_of_ne h]

theorem land_lor_of_land (x y m : Nat) (h : x &&& m = m) :
    (x ||| y) &&& m = m := by
  apply Nat.eq_of_testBit_eq
  intro i
  have h' := congrArg (fun n => n.testBit i) h
  simp only [Nat.testBit_land, Nat.testBit_lor] at h' ⊢
  cases hx : x.testBit i <;> cases hy : y.testBit i <;> cases hm : m.testBit i <;>
    simp_all

theorem strs_spans (l : GenLocals) (h0 : l.attr = 0) (hc : l.color_num = 0)
    (texts : List String) :
    traceSpans (genTrace l (texts.map Instruction.str))
      = texts.map (fun s => (s, 0)) := by
  induction texts with
  | nil => rfl
  | cons s rest ih =>
    have hz : l.attr ||| color_pair l.color_num = 0 := by
      rw [h0, hc]
      decide
    show (s, l.attr ||| color_pair l.color_num) ::
        traceSpans (genTrace l (rest.map Instruction.str))
      = (s, 0) :: rest.map (fun s => (s, 0))
    rw [hz, ih]

theorem procInstruction_map_extends (l : GenLocals) (item : Instruction) :
    ∃ e, (procInstruction l item).1.color_map = l.color_map ++ e := by
  cases item with
  | str s => exact ⟨[], by simp [procInstruction]⟩
  | setColor role c =>
    cases c with
    | none => exact ⟨[], by simp [procInstruction]⟩
    | some code =>
      cases role <;>
        (dsimp only [procInstruction]
         split
         · exact ⟨[], by simp⟩
         · exact ⟨_, rfl⟩)
  | setAttribute a => cases a <;> exact ⟨[], by simp [procInstruction]⟩

theorem driveGen_succ_irrel (oa oc : Nat) (tr : GenTrace) (m m' : ColorMap)
    (cp cp' : CursesColors) (k : Nat) :
    driveGen oa oc tr m cp (k + 1) = driveGen oa oc tr m' cp' (k + 1) := by
  cases tr <;> rfl

theorem driveGen_zero (oa oc : Nat) (tr : GenTrace) (m : ColorMap)
    (cp : CursesColors) :
    driveGen oa oc tr m cp 0 = ([], ⟨oa, oc, m⟩, cp) := by
  cases tr <;> rfl

theorem driveGen_done_succ (oa oc : Nat) (l : GenLocals) (m : ColorMap)
    (cp : CursesColors) (k : Nat) :
    driveGen oa oc (.done l) m cp (k + 1)
      = ([], ⟨l.attr, l.color_num, l.color_map⟩, l.colors) := rfl

theorem driveGen_emit_succ (oa oc : Nat) (s : String) (a : Nat) (l : GenLocals)
    (tr : GenTrace) (m : ColorMap) (cp : CursesColors) (k : Nat) :
    driveGen oa oc (.emit s a l tr) m cp (k + 1)
      = ((s, a) :: (driveGen oa oc tr l.color_map l.colors k).1,
         (driveGen oa oc tr l.color_map l.colors k).2) := rfl

theorem drive_prefix (oa oc : Nat) (stream : List Instruction) :
    ∀ (l : GenLocals) (k : Nat),
      k ≤ (traceSpans (genTrace l stream)).length →
      (driveGen oa oc (genTrace l stream) l.color_map l.colors k).1
          = (traceSpans (genTrace l stream)).take k ∧
      (driveGen oa oc (genTrace l stream) l.color_map l.colors k).2.1.attr = oa ∧
      (driveGen oa oc (genTrace l stream) l.color_map l.colors k).2.1.color_num
          = oc ∧
      ∃ e, (driveGen oa oc (genTrace l stream) l.color_map l.colors k).2.1.color_map
          = l.color_map ++ e := by
  induction stream with
  | nil =>
    intro l k hk
    have hk0 : k = 0 := Nat.le_zero.mp hk
    subst hk0
    rw [driveGen_zero]
    exact ⟨rfl, rfl, rfl, ⟨[], by simp⟩⟩
  | cons item rest ih =>
    intro l k hk
    rcases hpe : procInstruction l item with ⟨l2, os⟩
    obtain ⟨e1, he1⟩ : ∃ e, l2.color_map = l.color_map ++ e := by
      have h := procInstruction_map_extends l item
      rwa [hpe] at h
    cases os with
    | none =>
      have hgt : genTrace l (item :: rest) = genTrace l2 rest := by
        rw [genTrace, hpe]
      cases k with
      | zero =>
        rw [hgt, driveGen_zero]
        exact ⟨rfl, rfl, rfl, ⟨[], by simp⟩⟩
      | succ k =>
        rw [hgt] at hk ⊢
        rw [driveGen_succ_irrel oa oc _ l.color_map l2.color_map l.colors
          l2.colors k]
        obtain ⟨ha, hb, hc, e2, he2⟩ := ih l2 (k + 1) hk
        refine ⟨ha, hb, hc, ⟨e1 ++ e2, ?_⟩⟩
        rw [he2, he1, List.append_assoc]
    | some sa =>
      rcases sa with ⟨s, a⟩
      have hgt : genTrace l (item :: rest) = .emit s a l2 (genTrace l2 rest) := by
        rw [genTrace, hpe]
      cases k with
      | zero =>
        rw [hgt, driveGen_zero]
        exact ⟨rfl, rfl, rfl, ⟨[], by simp⟩⟩
      | succ k =>
        rw [hgt] at hk ⊢
        have hk' : k ≤ (traceSpans (genTrace l2 rest)).length := by
          simp only [traceSpans, List.length_cons] at hk
          omega
        obtain ⟨ha, hb, hc, e2, he2⟩ := ih l2 k hk'
        rw [driveGen_emit_succ]
        refine ⟨?_, hb, hc, ⟨e1 ++ e2, ?_⟩⟩
        · show (s, a) :: (driveGen oa oc (genTrace l2 rest) l2.color_map
              l2.colors k).1 = _
          rw [ha]
          rfl
        · show (driveGen oa oc (genTrace l2 rest) l2.color_map
              l2.colors k).2.1.color_map = _
          rw [he2, he1, List.append_assoc]

/-! ### claim theorems -/

/-- C1 (amended): on a fresh translator (no flags, slot 0, empty registry;
pair 0 content `(-1, -1)` because the program runs under
`use_default_colors`), the stream `[SetForeground(red=1),
SetBackground(blue=4), Text "hi", SetAttribute(NORMAL), Text "lo"]` yields
exactly the spans `("hi", color_pair 2)` — no style bits, slot 2 being the
slot of (red, blue) — and `("lo", 0)`; afterwards the registry holds two
entries, not one: slot 1 for (red, default-background), allocated eagerly
when the foreground alone had been set, and slot 2 for (red, blue). -/
theorem C1_scenario_amended :
    (StransiInstructionStreamTranslator.new.translate_ansi_instruction_stream
        ⟨(-1, -1), []⟩
        [.setColor .FOREGROUND (some 1), .setColor .BACKGROUND (some 4),
         .str "hi", .setAttribute .NORMAL, .str "lo"]).1
      = [("hi", color_pair 2), ("lo", 0)] ∧
    (StransiInstructionStreamTranslator.new.translate_ansi_instruction_stream
        ⟨(-1, -1), []⟩
        [.setColor .FOREGROUND (some 1), .setColor .BACKGROUND (some 4),
         .str "hi", .setAttribute .NORMAL, .str "lo"]).2.1.color_map
      = [(((1 : Int), (-1 : Int)), 1), (((1 : Int), (4 : Int)), 2)] := by
  decide

/-- C1 counterexample: after the scenario call the registry does not
contain exactly one entry mapping slot 1 to (red, blue) = (1, 4): it has
two entries, and (1, 4) is mapped to slot 2. -/
theorem C1_counterexample :
    (StransiInstructionStreamTranslator.new.translate_ansi_instruction_stream
        ⟨(-1, -1), []⟩
        [.setColor .FOREGROUND (some 1), .setColor .BACKGROUND (some 4),
         .str "hi", .setAttribute .NORMAL, .str "lo"]).2.1.color_map.length
      = 2 ∧
    cmLookup
      (StransiInstructionStreamTranslator.new.translate_ansi_instruction_stream
        ⟨(-1, -1), []⟩
        [.setColor .FOREGROUND (some 1), .setColor .BACKGROUND (some 4),
         .str "hi", .setAttribute .NORMAL, .str "lo"]).2.1.color_map (1, 4)
      = some 2 ∧
    (StransiInstructionStreamTranslator.new.translate_ansi_instruction_stream
        ⟨(-1, -1), []⟩
        [.setColor .FOREGROUND (some 1), .setColor .BACKGROUND (some 4),
         .str "hi", .setAttribute .NORMAL, .str "lo"]).2.1.color_map
      ≠ [(((1 : Int), (4 : Int)), 1)] := by
  decide

/-- C2 (amended): the offset invariant `0 ≤ y ≤ rows - 1 ∧ 0 ≤ x ≤ cols - 1`
is preserved by `move_by` and `jump_to` on any buffer with positive
dimensions, but `write` resizes the buffer while leaving the offset exactly
as it was, so a write that shrinks the dimensions below the current offset
leaves the invariant broken until the next move/jump re-clamps it. -/
theorem C2_offset_invariant_amended (pm : PadManager)
    (hR : 1 ≤ pm.rows) (hC : 1 ≤ pm.cols) :
    (∀ dy dx : Int, offsetInBounds (pm.move_by dy dx)) ∧
    (∀ ay ax : JumpArg, offsetInBounds (pm.jump_to ay ax)) ∧
    (∀ ansi_lines, (pm.write ansi_lines).coords = pm.coords) :=
  ⟨fun dy dx => offsetInBounds_move_by pm hR hC dy dx,
   fun ay ax => offsetInBounds_jump_to pm hR hC ay ax,
   fun _ => rfl⟩

/-- C2 witness: the amended theorem applied to the initial PadManager. -/
theorem C2_witness :
    1 ≤ initialPadManager.rows ∧ 1 ≤ initialPadManager.cols ∧
    offsetInBounds (initialPadManager.move_by 100 (-100)) :=
  ⟨by decide, by decide,
   (C2_offset_invariant_amended initialPadManager (by decide) (by decide)).1
     100 (-100)⟩

/-- C2 counterexample: starting from the initial 24×80 pad, scroll to
offset (5, 0), then `write` a single one-character line; the pad shrinks to
1 row while the offset stays (5, 0), violating `0 ≤ y ≤ rows - 1`. -/
theorem C2_counterexample :
    ((initialPadManager.move_by 5 0).write [[Instruction.str "a"]]).rows = 1 ∧
    ((initialPadManager.move_by 5 0).write [[Instruction.str "a"]]).coords
      = (5, 0) ∧
    ¬ offsetInBounds
        ((initialPadManager.move_by 5 0).write [[Instruction.str "a"]]) := by
  decide

/-- C3: for a buffer of fixed positive dimensions and an in-bounds starting
offset, the offset stays within `[0, rows-1] × [0, cols-1]` after any
sequence of `move_by` calls; each axis is clamped independently
(`min (max 0 (v + d)) (dim - 1)` depends only on that axis's own values), a
delta that stays in bounds is applied in full, and a delta heading past a
boundary saturates exactly at that boundary. -/
theorem C3_clamped_scroll (pm : PadManager) (ds : List (Int × Int))
    (hR : 1 ≤ pm.rows) (hC : 1 ≤ pm.cols) (h0 : offsetInBounds pm) :
    offsetInBounds (moveSeq pm ds) ∧
    (∀ dy dx : Int,
      (pm.move_by dy dx).coords.1
          = min (max 0 (pm.coords.1 + dy)) ((pm.rows : Int) - 1) ∧
      (pm.move_by dy dx).coords.2
          = min (max 0 (pm.coords.2 + dx)) ((pm.cols : Int) - 1) ∧
      (0 ≤ pm.coords.1 + dy → pm.coords.1 + dy ≤ (pm.rows : Int) - 1 →
        (pm.move_by dy dx).coords.1 = pm.coords.1 + dy) ∧
      (pm.coords.1 + dy < 0 → (pm.move_by dy dx).coords.1 = 0) ∧
      ((pm.rows : Int) - 1 < pm.coords.1 + dy →
        (pm.move_by dy dx).coords.1 = (pm.rows : Int) - 1) ∧
      (0 ≤ pm.coords.2 + dx → pm.coords.2 + dx ≤ (pm.cols : Int) - 1 →
        (pm.move_by dy dx).coords.2 = pm.coords.2 + dx) ∧
      (pm.coords.2 + dx < 0 → (pm.move_by dy dx).coords.2 = 0) ∧
      ((pm.cols : Int) - 1 < pm.coords.2 + dx →
        (pm.move_by dy dx).coords.2 = (pm.cols : Int) - 1)) := by
  have hR' : (0 : Int) ≤ (pm.rows : Int) - 1 := by omega
  have hC' : (0 : Int) ≤ (pm.cols : Int) - 1 := by omega
  refine ⟨(moveSeq_inBounds ds pm hR hC h0).1, ?_⟩
  intro dy dx
  have e1 : (pm.move_by dy dx).coords.1
      = min (max 0 (pm.coords.1 + dy)) ((pm.rows : Int) - 1) := rfl
  have e2 : (pm.move_by dy dx).coords.2
      = min (max 0 (pm.coords.2 + dx)) ((pm.cols : Int) - 1) := rfl
  refine ⟨e1, e2, ?_, ?_, ?_, ?_, ?_, ?_⟩
  · intro h1 h2
    rw [e1, max_eq_right h1, min_eq_left h2]
  · intro h
    rw [e1, max_eq_left (le_of_lt h), min_eq_left hR']
  · intro h
    rw [e1, min_eq_right (le_trans (le_of_lt h) (le_max_right 0 _))]
  · intro h1 h2
    rw [e2, max_eq_right h1, min_eq_left h2]
  · intro h
    rw [e2, max_eq_left (le_of_lt h), min_eq_left hC']
  · intro h
    rw [e2, min_eq_right (le_trans (le_of_lt h) (le_max_right 0 _))]

/-- C3 witness: the theorem applied to the initial 24×80 PadManager and a
concrete sequence of deltas. -/
theorem C3_witness :
    1 ≤ initialPadManager.rows ∧ 1 ≤ initialPadManager.cols ∧
    offsetInBounds initialPadManager ∧
    offsetInBounds (moveSeq initialPadManager [(100, -3), (-7, 9), (2, 2)]) :=
  ⟨by decide, by decide, by decide,
   (C3_clamped_scroll initialPadManager [(100, -3), (-7, 9), (2, 2)]
     (by decide) (by decide) (by decide)).1⟩

/-- C4: color-pair resolution is deterministic and monotonic: resolving an
already-registered pair returns its existing slot with the registry
unchanged; a new pair is assigned `maxSlot + 1` (1 on an empty registry),
which is never slot 0, and the mapping is recorded under that slot; no
existing mapping is ever removed or overwritten; and N distinct pairs
submitted in order to a fresh registry receive slots 1..N. -/
theorem C4_registry (m : ColorMap) (p : Int × Int) :
    (∀ n, cmLookup m p = some n → resolveColor m p = (n, m)) ∧
    (cmLookup m p = none →
      (resolveColor m p).1 = (if m.isEmpty then 1 else maxSlot m + 1) ∧
      1 ≤ (resolveColor m p).1 ∧
      (resolveColor m p).2 = m ++ [(p, (resolveColor m p).1)] ∧
      cmLookup (resolveColor m p).2 p = some (resolveColor m p).1) ∧
    (∀ q n, cmLookup m q = some n → cmLookup (resolveColor m p).2 q = some n) ∧
    (∀ ps : List (Int × Int), ps.Nodup →
      (resolveAll [] ps).1 = List.range' 1 ps.length) := by
  refine ⟨?_, ?_, ?_, ?_⟩
  · intro n h
    simp [resolveColor, h]
  · intro h
    have h1 : resolveColor m p = (allocSlot m, m ++ [(p, allocSlot m)]) := by
      simp [resolveColor, h]
    refine ⟨by rw [h1]; rfl, ?_, by rw [h1], ?_⟩
    · rw [h1]
      show 1 ≤ allocSlot m
      unfold allocSlot
      split <;> omega
    · rw [h1]
      show cmLookup (m ++ [(p, allocSlot m)]) p = some (allocSlot m)
      rw [cmLookup_append_none m _ p h]
      simp [cmLookup]
  · intro q n h
    rcases hl : cmLookup m p with _ | n'
    · simp only [resolveColor, hl]
      exact cmLookup_append_some m _ q n h
    · simp only [resolveColor, hl]
      exact h
  · intro ps hnd
    simpa using resolveAll_range ps [] 0 (fun p _ => rfl) hnd rfl

/-- C4 witness: resolving an already-registered pair returns its slot and
leaves the registry untouched. -/
theorem C4_witness :
    cmLookup [(((1 : Int), (2 : Int)), 5)] (1, 2) = some 5 ∧
    resolveColor [(((1 : Int), (2 : Int)), 5)] (1, 2)
      = (5, [(((1 : Int), (2 : Int)), 5)]) :=
  ⟨by decide,
   (C4_registry [(((1 : Int), (2 : Int)), 5)] (1, 2)).1 5 (by decide)⟩

/-- C5: translator style state persists across separate translate calls on
the same instance: if one call's write-back leaves the stored attr with the
bold bit set, a subsequent call whose stream is the single instruction
`Text "x"` yields the single span `("x", a)` where `a` still carries the
bold bit. -/
theorem C5_cross_call_persistence (t0 : StransiInstructionStreamTranslator)
    (cp0 : CursesColors) (stream : List Instruction)
    (hbold : (t0.translate_ansi_instruction_stream cp0 stream).2.1.attr
        &&& A_BOLD = A_BOLD) :
    ∃ a : Nat,
      ((t0.translate_ansi_instruction_stream cp0
            stream).2.1.translate_ansi_instruction_stream
          (t0.translate_ansi_instruction_stream cp0 stream).2.2
          [Instruction.str "x"]).1
        = [("x", a)] ∧
      a &&& A_BOLD = A_BOLD :=
  ⟨(t0.translate_ansi_instruction_stream cp0 stream).2.1.attr |||
      color_pair
        (t0.translate_ansi_instruction_stream cp0 stream).2.1.color_num,
   rfl, land_lor_of_land _ _ _ hbold⟩

/-- C5 witness: a first call that sets bold and never resets it, then a
second call on just `Text "x"`. -/
theorem C5_witness :
    (StransiInstructionStreamTranslator.new.translate_ansi_instruction_stream
        ⟨(-1, -1), []⟩ [.setAttribute .BOLD]).2.1.attr &&& A_BOLD = A_BOLD ∧
    ∃ a : Nat,
      ((StransiInstructionStreamTranslator.new.translate_ansi_instruction_stream
            ⟨(-1, -1), []⟩
            [.setAttribute .BOLD]).2.1.translate_ansi_instruction_stream
          (StransiInstructionStreamTranslator.new.translate_ansi_instruction_stream
            ⟨(-1, -1), []⟩ [.setAttribute .BOLD]).2.2
          [Instruction.str "x"]).1
        = [("x", a)] ∧
      a &&& A_BOLD = A_BOLD :=
  ⟨by decide, C5_cross_call_persistence _ _ _ (by decide)⟩

/-- C6: processing a NORMAL (reset) instruction, from any generator state,
zeroes the active flags and the active color slot — so every span emitted
for following text items (until some further styling instruction) carries
attribute 0, the encoding of zero flags and slot 0 — while the registry
dict and the curses pair table, with all previously allocated slots, are
left untouched. -/
theorem C6_reset_clears_only_selection (l : GenLocals) (texts : List String) :
    (procInstruction l (.setAttribute .NORMAL)).1.attr = 0 ∧
    (procInstruction l (.setAttribute .NORMAL)).1.color_num = 0 ∧
    (procInstruction l (.setAttribute .NORMAL)).1.color_map = l.color_map ∧
    (procInstruction l (.setAttribute .NORMAL)).1.colors = l.colors ∧
    traceSpans (genTrace (procInstruction l (.setAttribute .NORMAL)).1
        (texts.map Instruction.str))
      = texts.map (fun s => (s, 0)) :=
  ⟨rfl, rfl, rfl, rfl, strs_spans _ rfl rfl texts⟩

/-- C7 (amended): `move_by` and `jump_to` clamp only to the buffer's own
dimensions, `[0, dim - 1]` per axis, never consulting the screen size; the
offset is forced to stay 0 on an axis exactly when that axis's dimension is
1 — a buffer merely smaller than the physical screen can still scroll up
to `dim - 1`. -/
theorem C7_small_buffer_amended (pm : PadManager) :
    (pm.rows = 1 → ∀ dy dx : Int, (pm.move_by dy dx).coords.1 = 0) ∧
    (pm.cols = 1 → ∀ dy dx : Int, (pm.move_by dy dx).coords.2 = 0) ∧
    (pm.rows = 1 → ∀ ay ax : JumpArg, (pm.jump_to ay ax).coords.1 = 0) ∧
    (pm.cols = 1 → ∀ ay ax : JumpArg, (pm.jump_to ay ax).coords.2 = 0) := by
  have hcast : ((1 : Nat) : Int) - 1 = 0 := by norm_num
  refine ⟨?_, ?_, ?_, ?_⟩
  · intro h dy dx
    show bound 0 (.num (pm.coords.1 + dy)) ((pm.rows : Int) - 1) = 0
    rw [h, hcast, bound_zero]
  · intro h dy dx
    show bound 0 (.num (pm.coords.2 + dx)) ((pm.cols : Int) - 1) = 0
    rw [h, hcast, bound_zero]
  · intro h ay ax
    show bound 0
        (match ay with
          | .noneB => .num pm.coords.1 | .num n => .num n
          | .maxB => .maxS | .minB => .minS) ((pm.rows : Int) - 1) = 0
    rw [h, hcast, bound_zero]
  · intro h ay ax
    show bound 0
        (match ax with
          | .noneB => .num pm.coords.2 | .num n => .num n
          | .maxB => .maxS | .minB => .minS) ((pm.cols : Int) - 1) = 0
    rw [h, hcast, bound_zero]

/-- C7 witness: the amended theorem on a 1×1 buffer. -/
theorem C7_witness :
    ({ rows := 1, cols := 1, coords := (0, 0),
       translator := StransiInstructionStreamTranslator.new,
       colors := ⟨(-1, -1), []⟩ } : PadManager).rows = 1 ∧
    (({ rows := 1, cols := 1, coords := (0, 0),
        translator := StransiInstructionStreamTranslator.new,
        colors := ⟨(-1, -1), []⟩ } : PadManager).move_by 5 7).coords.1 = 0 :=
  ⟨rfl,
   (C7_small_buffer_amended
     { rows := 1, cols := 1, coords := (0, 0),
       translator := StransiInstructionStreamTranslator.new,
       colors := ⟨(-1, -1), []⟩ }).1 rfl 5 7⟩

/-- C7 counterexample: a 2×2 buffer is smaller than a 24×80 physical screen,
yet `move_by 1 1` moves the offset to (1, 1) rather than keeping it at
(0, 0). -/
theorem C7_counterexample :
    (2 < 24 ∧ 2 < 80) ∧
    (({ rows := 2, cols := 2, coords := (0, 0),
        translator := StransiInstructionStreamTranslator.new,
        colors := ⟨(-1, -1), []⟩ } : PadManager).move_by 1 1).coords
      = (1, 1) ∧
    (({ rows := 2, cols := 2, coords := (0, 0),
        translator := StransiInstructionStreamTranslator.new,
        colors := ⟨(-1, -1), []⟩ } : PadManager).move_by 1 1).coords
      ≠ (0, 0) := by
  decide

/-- C8 (amended): the single-bit disabling instructions (NOT_BLINK,
NOT_HIDDEN, NOT_ITALIC, NOT_REVERSE, NOT_UNDERLINE) clear exactly the bit
they name and leave every other bit unchanged; bold, however, has no
single-bit disable: the bold-disabling instruction is
NEITHER_BOLD_NOR_DIM, which clears both the bold bit (21) and the dim bit
(20), leaving all other bits unchanged. -/
theorem C8_disable_amended (l : GenLocals) (i : Nat) :
    ((procInstruction l (.setAttribute .NOT_BLINK)).1.attr.testBit 19 = false ∧
      (i ≠ 19 → (procInstruction l (.setAttribute .NOT_BLINK)).1.attr.testBit i
        = l.attr.testBit i)) ∧
    ((procInstruction l (.setAttribute .NOT_HIDDEN)).1.attr.testBit 23 = false ∧
      (i ≠ 23 → (procInstruction l (.setAttribute .NOT_HIDDEN)).1.attr.testBit i
        = l.attr.testBit i)) ∧
    ((procInstruction l (.setAttribute .NOT_ITALIC)).1.attr.testBit 31 = false ∧
      (i ≠ 31 → (procInstruction l (.setAttribute .NOT_ITALIC)).1.attr.testBit i
        = l.attr.testBit i)) ∧
    ((procInstruction l (.setAttribute .NOT_REVERSE)).1.attr.testBit 18 = false ∧
      (i ≠ 18 → (procInstruction l (.setAttribute .NOT_REVERSE)).1.attr.testBit i
        = l.attr.testBit i)) ∧
    ((procInstruction l (.setAttribute .NOT_UNDERLINE)).1.attr.testBit 17 = false ∧
      (i ≠ 17 → (procInstruction l (.setAttribute .NOT_UNDERLINE)).1.attr.testBit i
        = l.attr.testBit i)) ∧
    ((procInstruction l
        (.setAttribute .NEITHER_BOLD_NOR_DIM)).1.attr.testBit 21 = false ∧
      (procInstruction l
        (.setAttribute .NEITHER_BOLD_NOR_DIM)).1.attr.testBit 20 = false ∧
      (i ≠ 21 → i ≠ 20 →
        (procInstruction l
          (.setAttribute .NEITHER_BOLD_NOR_DIM)).1.attr.testBit i
          = l.attr.testBit i)) := by
  have hblink : A_BLINK = 2 ^ 19 := by decide
  have hinvis : A_INVIS = 2 ^ 23 := by decide
  have hitalic : A_ITALIC = 2 ^ 31 := by decide
  have hreverse : A_REVERSE = 2 ^ 18 := by decide
  have hunderline : A_UNDERLINE = 2 ^ 17 := by decide
  have hbold : A_BOLD = 2 ^ 21 := by decide
  have hdim : A_DIM = 2 ^ 20 := by decide
  refine ⟨⟨?_, ?_⟩, ⟨?_, ?_⟩, ⟨?_, ?_⟩, ⟨?_, ?_⟩, ⟨?_, ?_⟩, ?_, ?_, ?_⟩
  · show (andNot l.attr A_BLINK).testBit 19 = false
    rw [hblink, andNot_pow_testBit]
    simp
  · intro h
    show (andNot l.attr A_BLINK).testBit i = l.attr.testBit i
    rw [hblink, andNot_pow_testBit, if_neg (Ne.symm h)]
  · show (andNot l.attr A_INVIS).testBit 23 = false
    rw [hinvis, andNot_pow_testBit]
    simp
  · intro h
    show (andNot l.attr A_INVIS).testBit i = l.attr.testBit i
    rw [hinvis, andNot_pow_testBit, if_neg (Ne.symm h)]
  · show (andNot l.attr A_ITALIC).testBit 31 = false
    rw [hitalic, andNot_pow_testBit]
    simp
  · intro h
    show (andNot l.attr A_ITALIC).testBit i = l.attr.testBit i
    rw [hitalic, andNot_pow_testBit, if_neg (Ne.symm h)]
  · show (andNot l.attr A_REVERSE).testBit 18 = false
    rw [hreverse, andNot_pow_testBit]
    simp
  · intro h
    show (andNot l.attr A_REVERSE).testBit i = l.attr.testBit i
    rw [hreverse, andNot_pow_testBit, if_neg (Ne.symm h)]
  · show (andNot l.attr A_UNDERLINE).testBit 17 = false
    rw [hunderline, andNot_pow_testBit]
    simp
  · intro h
    show (andNot l.attr A_UNDERLINE).testBit i = l.attr.testBit i
    rw [hunderline, andNot_pow_testBit, if_neg (Ne.symm h)]
  · show (andNot l.attr (A_BOLD ||| A_DIM)).testBit 21 = false
    rw [testBit_andNot]
    have h21 : (A_BOLD ||| A_DIM).testBit 21 = true := by decide
    rw [h21]
    simp
  · show (andNot l.attr (A_BOLD ||| A_DIM)).testBit 20 = false
    rw [testBit_andNot]
    have h20 : (A_BOLD ||| A_DIM).testBit 20 = true := by decide
    rw [h20]
    simp
  · intro h21 h20
    show (andNot l.attr (A_BOLD ||| A_DIM)).testBit i = l.attr.testBit i
    rw [testBit_andNot]
    have hm : (A_BOLD ||| A_DIM).testBit i = false := by
      rw [hbold, hdim, Nat.testBit_lor,
        Nat.testBit_two_pow_of_ne (Ne.symm h21),
        Nat.testBit_two_pow_of_ne (Ne.symm h20)]
      rfl
    rw [hm]
    simp

/-- C8 witness: the amended theorem applied at a concrete state with bold,
dim and blink set, at bit 20 (dim) for the blink-disabling instruction. -/
theorem C8_witness :
    (20 : Nat) ≠ 19 ∧
    (procInstruction
        { attr := A_BOLD ||| A_DIM ||| A_BLINK, color_num := 0, fg := 0,
          bg := 0, color_map := [], colors := ⟨(-1, -1), []⟩ }
        (.setAttribute .NOT_BLINK)).1.attr.testBit 20
      = ({ attr := A_BOLD ||| A_DIM ||| A_BLINK, color_num := 0, fg := 0,
            bg := 0, color_map := [], colors := ⟨(-1, -1), []⟩ } :
          GenLocals).attr.testBit 20 :=
  ⟨by decide,
   (C8_disable_amended
     { attr := A_BOLD ||| A_DIM ||| A_BLINK, color_num := 0, fg := 0,
       bg := 0, color_map := [], colors := ⟨(-1, -1), []⟩ } 20).1.2
     (by decide)⟩

/-- C8 counterexample: starting from a state with both bold and dim set,
the bold-disabling instruction NEITHER_BOLD_NOR_DIM clears the dim bit
(bit 20) as well as the bold bit, so it does not leave dim unchanged. -/
theorem C8_counterexample :
    ({ attr := A_BOLD ||| A_DIM, color_num := 0, fg := 0, bg := 0,
       color_map := [], colors := ⟨(-1, -1), []⟩ } :
       GenLocals).attr.testBit 20 = true ∧
    (procInstruction
        { attr := A_BOLD ||| A_DIM, color_num := 0, fg := 0, bg := 0,
          color_map := [], colors := ⟨(-1, -1), []⟩ }
        (.setAttribute .NEITHER_BOLD_NOR_DIM)).1.attr.testBit 20 = false ∧
    (procInstruction
        { attr := A_BOLD ||| A_DIM, color_num := 0, fg := 0, bg := 0,
          color_map := [], colors := ⟨(-1, -1), []⟩ }
        (.setAttribute .NEITHER_BOLD_NOR_DIM)).1.attr = 0 := by
  decide

/-- C9 (code evaluation): the process exit status is 0 on a normal quit and
on KeyboardInterrupt, and 1 on CalledProcessError — but it is also 0 when a
generic fatal exception unwinds to `main`, because `exit_value` is never
reassigned in the generic `except Exception` branch even though the error
is logged and its traceback printed. -/
theorem C9_exit_status_on_fatal :
    mainExitStatus .otherException = 0 ∧
    mainExitStatus .normal = 0 ∧
    mainExitStatus .keyboardInterrupt = 0 ∧
    mainExitStatus .calledProcessError = 1 := by
  decide

/-- C10: `translate_ansi_instruction_stream` is a lazy generator and the
stored `_attr`/`_color_num` are written back only on exhaustion: a call
consuming only `k` of the available spans yields exactly the first `k`
spans of the full run, leaves the stored `_attr` and `_color_num` exactly
as they were before the call, and the shared registry dict holds the
original entries plus whatever the consumed prefix appended. -/
theorem C10_lazy_writeback (t : StransiInstructionStreamTranslator)
    (cp : CursesColors) (stream : List Instruction) (k : Nat)
    (hk : k ≤ (t.translate_ansi_instruction_stream cp stream).1.length) :
    (translatePartial t cp stream k).1
        = (t.translate_ansi_instruction_stream cp stream).1.take k ∧
    (translatePartial t cp stream k).2.1.attr = t.attr ∧
    (translatePartial t cp stream k).2.1.color_num = t.color_num ∧
    ∃ e, (translatePartial t cp stream k).2.1.color_map = t.color_map ++ e :=
  drive_prefix t.attr t.color_num stream (startLocals t cp) k hk

/-- C10 witness: consuming one span of a four-instruction stream leaves the
stored state untouched. -/
theorem C10_witness :
    1 ≤ (StransiInstructionStreamTranslator.new.translate_ansi_instruction_stream
        ⟨(-1, -1), []⟩
        [.setAttribute .BOLD, .str "a", .setColor .FOREGROUND (some 1),
         .str "b"]).1.length ∧
    ((translatePartial StransiInstructionStreamTranslator.new ⟨(-1, -1), []⟩
        [.setAttribute .BOLD, .str "a", .setColor .FOREGROUND (some 1),
         .str "b"] 1).1
      = (StransiInstructionStreamTranslator.new.translate_ansi_instruction_stream
          ⟨(-1, -1), []⟩
          [.setAttribute .BOLD, .str "a", .setColor .FOREGROUND (some 1),
           .str "b"]).1.take 1 ∧
    (translatePartial StransiInstructionStreamTranslator.new ⟨(-1, -1), []⟩
        [.setAttribute .BOLD, .str "a", .setColor .FOREGROUND (some 1),
         .str "b"] 1).2.1.attr
      = StransiInstructionStreamTranslator.new.attr ∧
    (translatePartial StransiInstructionStreamTranslator.new ⟨(-1, -1), []⟩
        [.setAttribute .BOLD, .str "a", .setColor .FOREGROUND (some 1),
         .str "b"] 1).2.1.color_num
      = StransiInstructionStreamTranslator.new.color_num ∧
    ∃ e, (translatePartial StransiInstructionStreamTranslator.new
        ⟨(-1, -1), []⟩
        [.setAttribute .BOLD, .str "a", .setColor .FOREGROUND (some 1),
         .str "b"] 1).2.1.color_map
      = StransiInstructionStreamTranslator.new.color_map ++ e) :=
  ⟨by decide,
   C10_lazy_writeback StransiInstructionStreamTranslator.new ⟨(-1, -1), []⟩
     [.setAttribute .BOLD, .str "a", .setColor .FOREGROUND (some 1),
      .str "b"] 1 (by decide)⟩

end Viewpane
